import Mathlib

/-! Verification of the rauth OAuth 1.0/a request-signing hook (`rauth/hook.py`).

The Python source is shallowly embedded: dictionaries become association
lists with insert-or-overwrite update, the mutable request object becomes an
explicit `Request` record threaded through `OAuth1Hook.call`, and the
per-instance `verifier` attribute becomes an explicit `HookState`.  The
current time and the generated nonce are passed as parameters, and the
signature strategy is passed as a function so that both succeeding and
failing strategies can be considered.  `rauth/oauth.py` (the `Consumer`,
`Token` and `HmacSha1Signature` classes) is not among the sources; those
pieces are modelled from the specification and marked as such. -/

/-- A Python value as it occurs in the hook's parameter dictionaries: either a
string or a (non-negative) integer; `oauth_timestamp` is stored as
`int(time.time())`, everything else the hook writes is a string. -/
inductive PyVal where
  | str (s : String)
  | int (n : Nat)
deriving DecidableEq, Repr

/-- Whether a `PyVal` is of Python string type. -/
def PyVal.isStr : PyVal → Bool
  | .str _ => true
  | .int _ => false

/-- Python `str(v)`: strings are unchanged, integers print in decimal. -/
def pyStr : PyVal → String
  | .str s => s
  | .int n => toString n

/-- The Python exceptions relevant to the hook.  `typeError` and
`valueError` are the built-in exceptions raised by `dict(...)` on malformed
arguments; the others come from the specification's error taxonomy
(`rauth` itself never raises them in the embedded code paths). -/
inductive PyErr where
  | typeError
  | valueError
  | invalidCredentialError
  | invalidRequestShapeError
  | signingError
deriving DecidableEq, Repr

/-! Python dictionaries as association lists.  `dput` is `d[k] = v`
(overwrite in place, append if fresh), `dget` is `d.get(k)`, `updateAll`
replays a list of assignments (`dict.update` / keyword merging). -/

/-- Insert-or-overwrite, keeping the position of an existing key, as a
Python dict assignment does. -/
def dput {α : Type} : List (String × α) → String → α → List (String × α)
  | [], k, v => [(k, v)]
  | (k', v') :: rest, k, v =>
    if k' = k then (k, v) :: rest else (k', v') :: dput rest k v

/-- Lookup of the (first, and for genuine dicts only) binding of a key. -/
def dget {α : Type} : List (String × α) → String → Option α
  | [], _ => none
  | (k', v') :: rest, k => if k' = k then some v' else dget rest k

/-- Replay a list of assignments on top of a base dictionary. -/
def updateAll {α : Type} (base : List (String × α)) (l : List (String × α)) :
    List (String × α) :=
  l.foldl (fun acc kv => dput acc kv.1 kv.2) base

/-- Build a dict from a list of pairs (`dict(pairs)`): later pairs win. -/
def dictOfPairs {α : Type} (l : List (String × α)) : List (String × α) :=
  updateAll [] l

/-- The keys of an association list. -/
def keysOf {α : Type} (l : List (String × α)) : List String :=
  l.map Prod.fst

/-- A genuine Python dictionary: every key occurs at most once. -/
def nodupKeys {α : Type} (l : List (String × α)) : Prop :=
  (keysOf l).Nodup

instance {α : Type} (l : List (String × α)) : Decidable (nodupKeys l) := by
  unfold nodupKeys; infer_instance

/-- Number of bindings of a key (used to state "appears exactly once"). -/
def countKey {α : Type} (l : List (String × α)) (k : String) : Nat :=
  (l.filter (fun kv => kv.1 == k)).length

/-- A parameter dictionary: Python dict from names to values. -/
abbrev Dict := List (String × PyVal)

/-! String utilities used by the hook: `urllib.quote`, `urllib.unquote`,
`cgi.parse_qsl`, `urlparse.urlsplit` and `urlparse.urlunsplit`, translated
from the Python 2 standard library functions the source calls. -/

/-- Characters `urllib.quote` never escapes (Python 2 `always_safe`):
letters, digits, `_`, `.`, `-`. -/
def alwaysSafeChar (c : Char) : Bool :=
  c.isAlpha || c.isDigit || c == '_' || c == '.' || c == '-'

/-- Uppercase hexadecimal digit for `n < 16`. -/
def hexDigitChar (n : Nat) : Char :=
  if n < 10 then Char.ofNat (48 + n) else Char.ofNat (55 + n)

/-- Python 2 `urllib.quote(s, safe)`: every byte outside `always_safe` and
`safe` becomes `%XX` with uppercase hex digits. -/
def pyQuote (safe : String) (s : String) : String :=
  ⟨(s.toList.map (fun c =>
      if alwaysSafeChar c || safe.toList.contains c then [c]
      else
        let n := c.toNat % 256
        ['%', hexDigitChar (n / 16), hexDigitChar (n % 16)])).flatten⟩

/-- Value of a hexadecimal digit character, if any. -/
def hexVal (c : Char) : Option Nat :=
  if '0' ≤ c ∧ c ≤ '9' then some (c.toNat - 48)
  else if 'A' ≤ c ∧ c ≤ 'F' then some (c.toNat - 55)
  else if 'a' ≤ c ∧ c ≤ 'f' then some (c.toNat - 87)
  else none

/-- Python 2 `urllib.unquote`: decode `%XX` escapes, leaving ill-formed
escapes in place (a lone trailing `%X` still decodes, as `int(x, 16)`
accepts a single digit). -/
def percentDecode : List Char → List Char
  | [] => []
  | ['%'] => ['%']
  | ['%', a] =>
    match hexVal a with
    | some x => [Char.ofNat x]
    | none => ['%', a]
  | '%' :: a :: b :: rest =>
    match hexVal a, hexVal b with
    | some x, some y => Char.ofNat (16 * x + y) :: percentDecode rest
    | _, _ => '%' :: percentDecode (a :: b :: rest)
  | c :: rest => c :: percentDecode rest

/-- Split a character list at every occurrence of a separator. -/
def splitOnChar (ch : Char) : List Char → List (List Char)
  | [] => [[]]
  | c :: rest =>
    let r := splitOnChar ch rest
    if c = ch then [] :: r
    else
      match r with
      | [] => [[c]]
      | h :: t => (c :: h) :: t

/-- Split at the first occurrence of a separator, if present; the separator
itself is dropped. -/
def splitFirst (ch : Char) : List Char → Option (List Char × List Char)
  | [] => none
  | c :: rest =>
    if c = ch then some ([], rest)
    else (splitFirst ch rest).map (fun ab => (c :: ab.1, ab.2))

/-- Python 2 `name_value.split('=', 1)` handling of one querystring token,
with `keep_blank_values` false: tokens without `=` or with an empty value
are dropped; `+` becomes a space and percent-escapes are decoded. -/
def parseQslPair (l : List Char) : Option (String × PyVal) :=
  if l = [] then none
  else
    match splitFirst '=' l with
    | none => none
    | some (n, v) =>
      if v = [] then none
      else
        let dec := fun (cs : List Char) =>
          percentDecode (cs.map (fun c => if c = '+' then ' ' else c))
        some (⟨dec n⟩, .str ⟨dec v⟩)

/-- Python 2 `cgi.parse_qsl(qs)` with default arguments: split on `&` and
`;`, keep only tokens with a `=` and a non-empty value. -/
def parseQsl (s : String) : List (String × PyVal) :=
  (((splitOnChar '&' s.toList).map (splitOnChar ';')).flatten.filterMap
    parseQslPair)

/-- Characters allowed in a URL scheme (Python 2 `urlparse.scheme_chars`). -/
def schemeChar (c : Char) : Bool :=
  c.isAlpha || c.isDigit || c == '+' || c == '-' || c == '.'

/-- Split a URL at its first colon, if any. -/
def findColon : List Char → Option (List Char × List Char)
  | [] => none
  | c :: rest =>
    if c = ':' then some ([], rest)
    else (findColon rest).map (fun ab => (c :: ab.1, ab.2))

/-- Scheme extraction of Python 2 `urlparse.urlsplit`: a non-empty prefix of
scheme characters before a colon, provided the remainder is not a bare port
number; the scheme is lowercased. -/
def splitScheme (l : List Char) : Option (List Char) × List Char :=
  match findColon l with
  | none => (none, l)
  | some (pre, rest) =>
    if pre ≠ [] ∧ pre.all schemeChar ∧ (rest = [] ∨ rest.any (fun c => !c.isDigit)) then
      (some (pre.map Char.toLower), rest)
    else (none, l)

/-- Netloc extraction: everything after `//` up to the first `/`, `?` or
`#` (Python 2 `urlparse._splitnetloc`). -/
def splitNetloc : List Char → List Char × List Char
  | [] => ([], [])
  | c :: rest =>
    if c = '/' ∨ c = '?' ∨ c = '#' then ([], c :: rest)
    else
      let ab := splitNetloc rest
      (c :: ab.1, ab.2)

/-- Split at a separator, returning the whole input and an empty remainder
when the separator is absent. -/
def splitAtCharD (ch : Char) (l : List Char) : List Char × List Char :=
  match splitFirst ch l with
  | none => (l, [])
  | some ab => ab

/-- Python 2 `urlparse.urlsplit` restricted to the generic http/https-like
schemes the hook is used with (for which Python does split off query and
fragment): returns `(scheme, netloc, path, query, fragment)`. -/
def urlsplit (url : String) : String × String × String × String × String :=
  let l := url.toList
  let sr := splitScheme l
  let scheme := sr.1.getD []
  let l1 := sr.2
  let nl :=
    if l1.take 2 = ['/', '/'] then splitNetloc (l1.drop 2)
    else ([], l1)
  let netloc := nl.1
  let f := splitAtCharD '#' nl.2
  let fragment := f.2
  let q := splitAtCharD '?' f.1
  (⟨scheme⟩, ⟨netloc⟩, ⟨q.1⟩, ⟨q.2⟩, ⟨fragment⟩)

/-- Python 2 `urlparse.urlunsplit`. -/
def urlunsplit (scheme netloc path query fragment : String) : String :=
  let url := path
  let url :=
    if netloc ≠ "" ∨ (url.toList.take 2 = ['/', '/']) then
      let url' := if url ≠ "" ∧ url.toList.take 1 ≠ ['/'] then "/" ++ url else url
      "//" ++ netloc ++ url'
    else url
  let url := if scheme ≠ "" then scheme ++ ":" ++ url else url
  let url := if query ≠ "" then url ++ "?" ++ query else url
  if fragment ≠ "" then url ++ "#" ++ fragment else url

/-- The realm computed by the hook in header-authentication mode:
`urlunsplit((scheme, netloc, '/', '', ''))` of the request URL. -/
def realmOf (url : String) : String :=
  let s := urlsplit url
  urlunsplit s.1 s.2.1 "/" "" ""

/-- Concatenation of a list of strings, left to right. -/
def strConcat : List String → String
  | [] => ""
  | s :: rest => s ++ strConcat rest

/-- Boolean test that `pat` starts `l`. -/
def leadsWith : List Char → List Char → Bool
  | [], _ => true
  | _ :: _, [] => false
  | a :: as, b :: bs => a == b && leadsWith as bs

/-- Boolean test that `pat` occurs contiguously inside `l`. -/
def containsSub (pat : List Char) : List Char → Bool
  | [] => pat.isEmpty
  | c :: rest => leadsWith pat (c :: rest) || containsSub pat rest

/-- Substring test on strings. -/
def containsStr (s pat : String) : Bool :=
  containsSub pat.toList s.toList

/-! The credential model and the hook.  `Consumer` and `Token` live in
`rauth/oauth.py`, which is not among the sources; they are modelled from the
specification. -/

/-- Modelled from the spec: the `Consumer` class of `rauth/oauth.py` (not in
the sources).  Per the spec a consumer is an immutable pair of key and
secret. -/
structure Consumer where
  key : String
  secret : String
deriving DecidableEq, Repr

/-- Modelled from the spec: the `Token` class of `rauth/oauth.py` (not in
the sources).  Per the spec a token is an immutable pair of key and
secret. -/
structure Token where
  key : String
  secret : String
deriving DecidableEq, Repr

/-- Modelled from the spec: `Consumer` construction requires two non-empty
strings and missing consumer credentials are a fatal construction-time
error (spec sections 4.1 and 4.6). -/
def mkConsumer (key secret : String) : Except PyErr Consumer :=
  if key = "" ∨ secret = "" then .error .invalidCredentialError
  else .ok ⟨key, secret⟩

/-- The shapes the hook accepts for `request.params` / `request.data`: an
already-decoded mapping, a list of pairs (converted up front by the
"workaround" in `__call__`), or a raw querystring. -/
inductive ParamsIn where
  | plist (l : List (String × PyVal))
  | pdict (d : Dict)
  | pstr (s : String)
deriving DecidableEq, Repr

/-- The request view the hook mutates: method, URL, headers, query
parameters (`params`), body parameters (`data`), plus the two attributes
the hook attaches (`oauth_params`, `params_and_data`). -/
structure Request where
  method : String
  url : String
  headers : List (String × String)
  params : ParamsIn
  data : ParamsIn
  oauth_params : Option Dict := none
  params_and_data : Option Dict := none
deriving DecidableEq, Repr

/-- The hook's construction-time configuration.  The signature strategy is
represented by its `NAME` here; its `sign` behaviour is a parameter of
`OAuth1Hook.call`. -/
structure OAuth1Hook where
  consumer : Consumer
  token : Option Token
  header_auth : Bool
  sig_name : String
deriving DecidableEq, Repr

/-- The per-instance mutable state of the hook: the remembered
`oauth_verifier` (a class attribute, `None` until first observed). -/
structure HookState where
  verifier : Option PyVal
deriving DecidableEq, Repr

/-- `OAuth1Hook.__init__`: build the consumer, set the token only when both
`access_token` and `access_token_secret` are given (`not None in (a, b)`),
record `header_auth`, default the signature strategy to `HmacSha1Signature`
(name `"HMAC-SHA1"`) unless one is supplied. -/
def OAuth1Hook.init (consumer_key consumer_secret : String)
    (access_token access_token_secret : Option String)
    (header_auth : Bool := false) (signature : Option String := none) :
    Except PyErr OAuth1Hook := do
  let consumer ← mkConsumer consumer_key consumer_secret
  let token : Option Token :=
    match access_token, access_token_secret with
    | some k, some s => some ⟨k, s⟩
    | _, _ => none
  .ok { consumer := consumer, token := token, header_auth := header_auth,
        sig_name := signature.getD "HMAC-SHA1" }

/-- The content type the hook defaults to and tests against. -/
def formUrl : String := "application/x-www-form-urlencoded"

/-- The "workaround" at the top of `__call__`: a list of pairs is converted
to a dict. -/
def dictifyIn : ParamsIn → ParamsIn
  | .plist l => .pdict (dictOfPairs l)
  | x => x

/-- The merge of `request.params` and `request.data` performed by
`__call__`: `dict(parse_qsl(params) + parse_qsl(data))` when both are raw
strings, `dict(params, **data)` otherwise.  Python's `dict` raises
`ValueError` when asked to build a dict from a non-empty string and `**`
raises `TypeError` on any string, so the mixed raw/decoded shapes fail with
those built-in errors. -/
def mergeParamsData : ParamsIn → ParamsIn → Except PyErr Dict
  | .pstr ps, .pstr ds => .ok (dictOfPairs (parseQsl ps ++ parseQsl ds))
  | .pdict _, .pstr _ => .error .typeError
  | .plist _, .pstr _ => .error .typeError
  | .pstr ps, .pdict dd => if ps = "" then .ok dd else .error .valueError
  | .pstr ps, .plist dl => if ps = "" then .ok (dictOfPairs dl) else .error .valueError
  | .pdict pd, .pdict dd => .ok (updateAll pd dd)
  | .pdict pd, .plist dl => .ok (updateAll pd (dictOfPairs dl))
  | .plist pl, .pdict dd => .ok (updateAll (dictOfPairs pl) dd)
  | .plist pl, .plist dl => .ok (updateAll (dictOfPairs pl) (dictOfPairs dl))

/-- The merged caller parameters of a request, after the list-to-dict
workaround. -/
def mergedOf (r : Request) : Except PyErr Dict :=
  mergeParamsData (dictifyIn r.params) (dictifyIn r.data)

/-- The verifier update in `__call__`: if the merged parameters carry
`oauth_verifier`, remember its value. -/
def stepVerifier (st : HookState) (m : Dict) : HookState :=
  match dget m "oauth_verifier" with
  | some v => ⟨some v⟩
  | none => st

/-- The `oauth_params` property: consumer key, timestamp (`int(time.time())`),
nonce, version `"1.0"`, the token key if a token is held, the remembered
verifier if any, and the signature method name, in that insertion order. -/
def OAuth1Hook.oauth_params (h : OAuth1Hook) (verifier : Option PyVal)
    (now : Nat) (nonce : String) : Dict :=
  let d := dput (dput (dput (dput [] "oauth_consumer_key" (.str h.consumer.key))
    "oauth_timestamp" (.int now)) "oauth_nonce" (.str nonce)) "oauth_version" (.str "1.0")
  let d := match h.token with
    | some t => dput d "oauth_token" (.str t.key)
    | none => d
  let d := match verifier with
    | some v => dput d "oauth_verifier" v
    | none => d
  dput d "oauth_signature_method" (.str h.sig_name)

/-- The `oauth_callback` passthrough in `__call__`: a caller-supplied
callback is copied verbatim into the generated parameter set. -/
def withCallback (ops m : Dict) : Dict :=
  match dget m "oauth_callback" with
  | some v => dput ops "oauth_callback" v
  | none => ops

/-- The full OAuth parameter set `__call__` attaches to the request before
signing: the `oauth_params` property evaluated after the verifier update,
plus the caller's `oauth_callback` if present. -/
def genOauth (h : OAuth1Hook) (st : HookState) (m : Dict) (now : Nat)
    (nonce : String) : Dict :=
  withCallback (h.oauth_params (stepVerifier st m).verifier now nonce) m

/-- The request as it stands right before `signature.sign` runs: params and
data dictified, `oauth_params` and `params_and_data` attached (the latter a
copy of the former). -/
def requestAfterParams (r : Request) (ops : Dict) : Request :=
  { r with params := dictifyIn r.params, data := dictifyIn r.data,
           oauth_params := some ops, params_and_data := some ops }

/-! The signature strategy.  `HmacSha1Signature` lives in `rauth/oauth.py`,
which is not among the sources; its behaviour is modelled from the
specification (sections 4.3 to 4.5 and 4.6 steps 3 to 5). -/

/-- Modelled from the spec: the OAuth percent-encoding used inside the
signature strategy (section 4.3 step 2): RFC 3986 unreserved characters
(letters, digits, `-`, `.`, `_`, `~`) are left unescaped. -/
def escape (s : String) : String := pyQuote "~" s

/-- A view of any accepted parameter shape as a mapping (spec section 4.6
step 1: raw values are parsed into mappings first). -/
def toMapping : ParamsIn → Dict
  | .pstr s => dictOfPairs (parseQsl s)
  | .pdict d => d
  | .plist l => dictOfPairs l

/-- Byte-lexicographic comparison of character lists. -/
def chLe : List Char → List Char → Bool
  | [], _ => true
  | _ :: _, [] => false
  | a :: as, b :: bs =>
    if a = b then chLe as bs else decide (a.toNat < b.toNat)

/-- Insert into a list sorted by `le`. -/
def insSorted {α : Type} (le : α → α → Bool) (x : α) : List α → List α
  | [] => [x]
  | y :: ys => if le x y then x :: y :: ys else y :: insSorted le x ys

/-- Insertion sort by `le`. -/
def sortByLe {α : Type} (le : α → α → Bool) : List α → List α
  | [] => []
  | x :: xs => insSorted le x (sortByLe le xs)

/-- Modelled from the spec: parameter normalization (section 4.3):
percent-encode every key and value, sort pairs by encoded key then encoded
value, join as `key=value` with `&`. -/
def normalizeParams (d : Dict) : String :=
  let enc := d.map (fun kv => (escape kv.1, escape (pyStr kv.2)))
  let le := fun (a b : String × String) =>
    if a.1 = b.1 then chLe a.2.toList b.2.toList else chLe a.1.toList b.1.toList
  String.intercalate "&" ((sortByLe le enc).map (fun p => p.1 ++ "=" ++ p.2))

/-- Modelled from the spec: strip the query string from the URL, keeping
scheme, host and path (section 4.4 step 2). -/
def removeQs (url : String) : String :=
  let s := urlsplit url
  urlunsplit s.1 s.2.1 s.2.2.1 "" ""

/-- Modelled from the spec: the signature base string (section 4.4):
uppercased method, query-stripped URL and normalized parameters, each
percent-encoded, joined with `&`. -/
def baseString (method url normalized : String) : String :=
  escape method.toUpper ++ "&" ++ escape url ++ "&" ++ escape normalized

/-- Modelled from the spec: the composite signing key (section 4.5):
`escape(consumerSecret) & escape(tokenSecret or "")`. -/
def compositeKey (c : Consumer) (t : Option Token) : String :=
  escape c.secret ++ "&" ++ (match t with | some tk => escape tk.secret | none => "")

/-- The merged parameter set the signature strategy builds on the request:
the oauth parameters held in `params_and_data` updated with the caller's
query and body parameters (spec section 4.3 step 1 and section 4.6 step 3;
the merge target is the dict `params_and_data`, so later assignments
overwrite). -/
def signMergedOf (r : Request) : Dict :=
  updateAll (updateAll (r.params_and_data.getD []) (toMapping r.params))
    (toMapping r.data)

/-- The base string the signature strategy signs for a request. -/
def signBaseOf (r : Request) : String :=
  baseString r.method (removeQs r.url) (normalizeParams (signMergedOf r))

/-- Modelled from the spec: `HmacSha1Signature.sign` (not in the sources).
It normalizes and merges the request parameters into `params_and_data`,
builds the base string, computes the signature over it with the composite
key — the cryptographic core is the supplied `sigf`, which may fail with
`SigningError` — and adds `oauth_signature` to the merged set. -/
def signEffect (sigf : String → String → Except PyErr String)
    (c : Consumer) (t : Option Token) (r : Request) : Except PyErr Dict :=
  match sigf (compositeKey c t) (signBaseOf r) with
  | .ok s => .ok (dput (signMergedOf r) "oauth_signature" (.str s))
  | .error e => .error e

/-- `request.headers.get('content-type', form_urlencoded)`. -/
def contentTypeOf (r : Request) : String :=
  (dget r.headers "content-type").getD formUrl

/-- One `,key="quoted-value"` fragment of the Authorization header. -/
def paramChunk (kv : String × PyVal) : String :=
  "," ++ kv.1 ++ "=\"" ++ pyQuote "/" (pyStr kv.2) ++ "\""

/-- `OAuth1Hook.auth_header`: `OAuth realm="<realm>"` followed by one
`,key="value"` fragment per parameter, values passed through
`urllib.quote(str(v))`. -/
def OAuth1Hook.auth_header (oauth_params : Dict) (realm : String) : String :=
  "OAuth realm=\"" ++ realm ++ "\"" ++ strConcat (oauth_params.map paramChunk)

/-- `OAuth1Hook.__call__`, as explicit state passing: takes the signing
function, the current time and nonce, the hook, its mutable state and the
request; returns the new state, the request as left by the call, and the
exception that escaped, if any. -/
def OAuth1Hook.call (h : OAuth1Hook) (sigf : String → String → Except PyErr String)
    (now : Nat) (nonce : String) (st : HookState) (r : Request) :
    HookState × Request × Option PyErr :=
  let r1 := { r with params := dictifyIn r.params, data := dictifyIn r.data }
  match mergedOf r with
  | .error e => (st, r1, some e)
  | .ok m =>
    let st1 := stepVerifier st m
    let ops := genOauth h st m now nonce
    let r2 := requestAfterParams r ops
    match signEffect sigf h.consumer h.token r2 with
    | .error e => (st1, r2, some e)
    | .ok pads =>
      let r3 := { r2 with params_and_data := some pads }
      let ct := contentTypeOf r3
      let r4 := { r3 with headers := dput r3.headers "content-type" ct }
      let hdr := OAuth1Hook.auth_header pads (realmOf r4.url)
      let r5 :=
        if h.header_auth then
          { r4 with headers := dput r4.headers "Authorization" hdr }
        else if r4.method = "POST" ∧ ct = formUrl then
          { r4 with data := .pdict pads }
        else
          { r4 with params := .pdict pads }
      (st1, { r5 with params_and_data := none }, none)


/-- The merged-and-signed parameter set a call with an always-succeeding
signing function `g` leaves in `params_and_data` right after the signature
step: the generated OAuth parameters updated with the caller's query and
body parameters, plus `oauth_signature`. -/
def signedOf (h : OAuth1Hook) (g : String → String → String) (st : HookState)
    (now : Nat) (nonce : String) (r : Request) (m : Dict) : Dict :=
  dput (updateAll (updateAll (genOauth h st m now nonce) (toMapping r.params))
      (toMapping r.data))
    "oauth_signature"
    (.str (g (compositeKey h.consumer h.token)
      (signBaseOf (requestAfterParams r (genOauth h st m now nonce)))))

/-! Concrete fixtures used by witnesses and counterexamples. -/

/-- A hook with body/query placement (header auth off). -/
def hkBody : OAuth1Hook := ⟨⟨"ck", "cs"⟩, none, false, "HMAC-SHA1"⟩

/-- A hook with header authentication enabled. -/
def hkHdr : OAuth1Hook := ⟨⟨"ck", "cs"⟩, none, true, "HMAC-SHA1"⟩

/-- A signing function that always succeeds with a fixed signature. -/
def okSig : String → String → Except PyErr String := fun _ _ => .ok "SIG"

/-- A signing function that always fails (spec: bad key material). -/
def failSig : String → String → Except PyErr String := fun _ _ => .error .signingError

/-- An always-succeeding signing strategy built from a total function. -/
def totalSig (g : String → String → String) : String → String → Except PyErr String :=
  fun key base => .ok (g key base)

/-- A request whose query parameters carry a verifier. -/
def rVerifier : Request :=
  ⟨"GET", "http://e/", [], .pdict [("oauth_verifier", .str "XYZ")], .pdict [], none, none⟩

/-- A request with no parameters at all. -/
def rPlain : Request := ⟨"GET", "http://e/", [], .pdict [], .pdict [], none, none⟩

/-- A request whose query parameters carry a callback. -/
def rCallback : Request :=
  ⟨"GET", "http://e/", [], .pdict [("oauth_callback", .str "http://cb/")], .pdict [], none, none⟩

/-- A GET request with one ordinary query parameter. -/
def rHdrFoo : Request :=
  ⟨"GET", "http://example.com/res?x=1", [], .pdict [("foo", .str "bar")], .pdict [], none, none⟩

/-- A form POST with one ordinary body parameter. -/
def rBodyX : Request :=
  ⟨"POST", "http://example.com/res", [], .pdict [], .pdict [("x", .str "y")], none, none⟩

/-- A form POST whose body parameter collides with a generated OAuth key. -/
def rBodyColl : Request :=
  ⟨"POST", "http://example.com/res", [], .pdict [], .pdict [("oauth_version", .str "2.0")], none, none⟩

/-- A request whose query parameters arrive as a pair list with a duplicate
key. -/
def rListDup : Request :=
  ⟨"GET", "http://e/", [], .plist [("a", .str "1"), ("a", .str "2")], .pdict [], none, none⟩

/-- A request mixing a raw query string with a decoded body mapping. -/
def rMixedRaw : Request := ⟨"GET", "http://e/", [], .pstr "a=1", .pdict [], none, none⟩

/-- A request mixing an empty raw query string with a decoded body mapping. -/
def rMixedEmpty : Request :=
  ⟨"GET", "http://e/", [], .pstr "", .pdict [("b", .str "2")], none, none⟩

/-! Association-list lemmas about `dput`, `dget`, `updateAll`, `countKey`. -/

theorem keysOf_cons {α : Type} (k : String) (v : α) (t : List (String × α)) :
    keysOf ((k, v) :: t) = k :: keysOf t := rfl

theorem nodupKeys_cons {α : Type} {k : String} {v : α} {t : List (String × α)} :
    nodupKeys ((k, v) :: t) ↔ k ∉ keysOf t ∧ nodupKeys t := by
  simp [nodupKeys, keysOf_cons]

theorem dget_cons_self {α : Type} {k : String} {v : α} {t : List (String × α)} :
    dget ((k, v) :: t) k = some v := by
  simp [dget]

theorem dget_cons_ne {α : Type} {k k' : String} {v : α} {t : List (String × α)}
    (h : k' ≠ k) : dget ((k', v) :: t) k = dget t k := by
  simp [dget, h]

theorem dget_dput_self {α : Type} (d : List (String × α)) (k : String) (v : α) :
    dget (dput d k v) k = some v := by
  induction d with
  | nil => simp [dput, dget]
  | cons hd tl ih =>
    obtain ⟨k', v'⟩ := hd
    by_cases h : k' = k
    · simp [dput, h, dget]
    · simpa [dput, h, dget_cons_ne h] using ih

theorem dget_dput_ne {α : Type} (d : List (String × α)) (k : String) (v : α)
    (k' : String) (h : k' ≠ k) : dget (dput d k v) k' = dget d k' := by
  induction d with
  | nil => simp [dput, dget, h, Ne.symm h]
  | cons hd tl ih =>
    obtain ⟨k₁, v₁⟩ := hd
    by_cases h₁ : k₁ = k
    · subst h₁
      simp [dput, dget, h, Ne.symm h]
    · by_cases h₂ : k₁ = k'
      · subst h₂
        simp [dput, h₁, dget]
      · simp [dput, h₁, dget, h₂, ih]

theorem mem_keys_dput {α : Type} (d : List (String × α)) (k : String) (v : α)
    (k' : String) : k' ∈ keysOf (dput d k v) ↔ k' = k ∨ k' ∈ keysOf d := by
  induction d with
  | nil => simp [dput, keysOf]
  | cons hd tl ih =>
    obtain ⟨k₁, v₁⟩ := hd
    by_cases h₁ : k₁ = k
    · subst h₁
      simp [dput, keysOf_cons]
    · simp only [dput, if_neg h₁, keysOf_cons, List.mem_cons, ih]
      tauto

theorem nodupKeys_dput {α : Type} (d : List (String × α)) (k : String) (v : α)
    (h : nodupKeys d) : nodupKeys (dput d k v) := by
  induction d with
  | nil => simp [dput, nodupKeys, keysOf]
  | cons hd tl ih =>
    obtain ⟨k₁, v₁⟩ := hd
    rw [nodupKeys_cons] at h
    by_cases h₁ : k₁ = k
    · subst h₁
      simpa [dput, nodupKeys_cons] using h
    · rw [dput, if_neg h₁, nodupKeys_cons]
      refine ⟨fun hmem => ?_, ih h.2⟩
      rcases (mem_keys_dput tl k v k₁).1 hmem with h' | h'
      · exact h₁ h'
      · exact h.1 h'

theorem dget_eq_none_iff {α : Type} (d : List (String × α)) (k : String) :
    dget d k = none ↔ k ∉ keysOf d := by
  induction d with
  | nil => simp [dget, keysOf]
  | cons hd tl ih =>
    obtain ⟨k₁, v₁⟩ := hd
    by_cases h₁ : k₁ = k
    · subst h₁
      simp [dget, keysOf_cons]
    · simp [dget, h₁, keysOf_cons, ih, Ne.symm h₁]

theorem dget_updateAll_cons {α : Type} (p : List (String × α)) (k₁ : String)
    (v₁ : α) (tl : List (String × α)) :
    updateAll p ((k₁, v₁) :: tl) = updateAll (dput p k₁ v₁) tl := rfl

theorem dget_updateAll_of_none {α : Type} (l : List (String × α))
    (p : List (String × α)) (k : String) (h : dget l k = none) :
    dget (updateAll p l) k = dget p k := by
  induction l generalizing p with
  | nil => simp [updateAll]
  | cons hd tl ih =>
    obtain ⟨k₁, v₁⟩ := hd
    by_cases h₁ : k₁ = k
    · subst h₁
      simp [dget] at h
    · rw [dget_cons_ne h₁] at h
      rw [dget_updateAll_cons, ih (dput p k₁ v₁) h,
        dget_dput_ne p k₁ v₁ k (Ne.symm h₁)]

theorem dget_updateAll_of_some {α : Type} (l : List (String × α))
    (p : List (String × α)) (k : String) (v : α) (hn : nodupKeys l)
    (h : dget l k = some v) : dget (updateAll p l) k = some v := by
  induction l generalizing p with
  | nil => simp [dget] at h
  | cons hd tl ih =>
    obtain ⟨k₁, v₁⟩ := hd
    rw [nodupKeys_cons] at hn
    by_cases h₁ : k₁ = k
    · subst h₁
      rw [dget_cons_self] at h
      obtain rfl : v₁ = v := by injection h
      have htl : dget tl k₁ = none := (dget_eq_none_iff tl k₁).2 hn.1
      rw [dget_updateAll_cons, dget_updateAll_of_none tl _ k₁ htl, dget_dput_self]
    · rw [dget_cons_ne h₁] at h
      rw [dget_updateAll_cons]
      exact ih (dput p k₁ v₁) hn.2 h

theorem nodupKeys_updateAll {α : Type} (l : List (String × α))
    (p : List (String × α)) (h : nodupKeys p) : nodupKeys (updateAll p l) := by
  induction l generalizing p with
  | nil => simpa [updateAll] using h
  | cons hd tl ih =>
    obtain ⟨k₁, v₁⟩ := hd
    rw [dget_updateAll_cons]
    exact ih (dput p k₁ v₁) (nodupKeys_dput p k₁ v₁ h)

theorem nodupKeys_nil {α : Type} : nodupKeys ([] : List (String × α)) := by
  simp [nodupKeys, keysOf]

theorem nodupKeys_dictOfPairs {α : Type} (l : List (String × α)) :
    nodupKeys (dictOfPairs l) :=
  nodupKeys_updateAll l [] nodupKeys_nil

theorem countKey_cons_eq {α : Type} {k₁ k : String} (v₁ : α)
    (t : List (String × α)) (h : k₁ = k) :
    countKey ((k₁, v₁) :: t) k = countKey t k + 1 := by
  simp [countKey, List.filter_cons, h]

theorem countKey_cons_ne {α : Type} {k₁ k : String} (v₁ : α)
    (t : List (String × α)) (h : k₁ ≠ k) :
    countKey ((k₁, v₁) :: t) k = countKey t k := by
  simp [countKey, List.filter_cons, h]

theorem countKey_eq_zero {α : Type} (d : List (String × α)) (k : String)
    (h : k ∉ keysOf d) : countKey d k = 0 := by
  induction d with
  | nil => simp [countKey]
  | cons hd tl ih =>
    obtain ⟨k₁, v₁⟩ := hd
    rw [keysOf_cons, List.mem_cons] at h
    push_neg at h
    rw [countKey_cons_ne v₁ tl (Ne.symm h.1)]
    exact ih h.2

theorem countKey_eq_one {α : Type} (d : List (String × α)) (k : String) (v : α)
    (hn : nodupKeys d) (h : dget d k = some v) : countKey d k = 1 := by
  induction d with
  | nil => simp [dget] at h
  | cons hd tl ih =>
    obtain ⟨k₁, v₁⟩ := hd
    rw [nodupKeys_cons] at hn
    by_cases h₁ : k₁ = k
    · subst h₁
      rw [countKey_cons_eq v₁ tl rfl, countKey_eq_zero tl k₁ hn.1]
    · rw [dget_cons_ne h₁] at h
      rw [countKey_cons_ne v₁ tl h₁]
      exact ih hn.2 h

/-! String lemmas: associativity of append, concatenation membership, and
the substring test. -/

theorem strToList_append (a b : String) : (a ++ b).toList = a.toList ++ b.toList := by
  cases a
  cases b
  rfl

theorem strAppend_assoc (a b c : String) : a ++ b ++ c = a ++ (b ++ c) := by
  cases a
  cases b
  cases c
  simp [String.append_assoc]

theorem strNil_append (s : String) : "" ++ s = s := by
  cases s
  rfl

theorem strConcat_mem (x : String) (l : List String) (hx : x ∈ l) :
    ∃ a b, strConcat l = a ++ (x ++ b) := by
  induction l with
  | nil => simp at hx
  | cons y t ih =>
    rcases List.mem_cons.1 hx with rfl | hmem
    · exact ⟨"", strConcat t, (strNil_append _).symm⟩
    · obtain ⟨a, b, hab⟩ := ih hmem
      exact ⟨y ++ a, b, by rw [strConcat, hab, strAppend_assoc]⟩

theorem leadsWith_append (pat rest : List Char) :
    leadsWith pat (pat ++ rest) = true := by
  induction pat with
  | nil => simp [leadsWith]
  | cons c t ih => simp [leadsWith, ih]

theorem containsSub_of_leadsWith (pat l : List Char)
    (h : leadsWith pat l = true) : containsSub pat l = true := by
  cases l with
  | nil =>
    cases pat with
    | nil => rfl
    | cons c t => simp [leadsWith] at h
  | cons c rest => simp [containsSub, h]

theorem containsSub_append (a pat b : List Char) :
    containsSub pat (a ++ (pat ++ b)) = true := by
  induction a with
  | nil =>
    rw [List.nil_append]
    exact containsSub_of_leadsWith _ _ (leadsWith_append pat b)
  | cons c t ih => simp [containsSub, ih]

theorem containsStr_of_eq (s a pat b : String) (h : s = a ++ (pat ++ b)) :
    containsStr s pat = true := by
  rw [containsStr, h, strToList_append, strToList_append]
  exact containsSub_append _ _ _

/-! Facts about the generated OAuth parameter sets. -/

theorem nodupKeys_oauth_params (h : OAuth1Hook) (ver : Option PyVal)
    (now : Nat) (nonce : String) :
    nodupKeys (OAuth1Hook.oauth_params h ver now nonce) := by
  obtain ⟨⟨ck, cs⟩, tok, ha, sn⟩ := h
  cases tok <;> cases ver <;>
    · repeat' apply nodupKeys_dput
      exact nodupKeys_nil

theorem oauth_params_no_callback (h : OAuth1Hook) (ver : Option PyVal)
    (now : Nat) (nonce : String) :
    dget (OAuth1Hook.oauth_params h ver now nonce) "oauth_callback" = none := by
  obtain ⟨⟨ck, cs⟩, tok, ha, sn⟩ := h
  cases tok <;> cases ver <;> rfl

theorem nodupKeys_genOauth (h : OAuth1Hook) (st : HookState) (m : Dict)
    (now : Nat) (nonce : String) : nodupKeys (genOauth h st m now nonce) := by
  rw [genOauth, withCallback]
  cases dget m "oauth_callback"
  · exact nodupKeys_oauth_params ..
  · exact nodupKeys_dput _ _ _ (nodupKeys_oauth_params ..)

theorem toMapping_dictifyIn (x : ParamsIn) : toMapping (dictifyIn x) = toMapping x := by
  cases x <;> rfl

theorem signEffect_total (g : String → String → String) (h : OAuth1Hook)
    (st : HookState) (now : Nat) (nonce : String) (r : Request) (m : Dict) :
    signEffect (totalSig g) h.consumer h.token
      (requestAfterParams r (genOauth h st m now nonce)) =
      .ok (signedOf h g st now nonce r m) := by
  simp [signEffect, totalSig, signedOf, signMergedOf, requestAfterParams, toMapping_dictifyIn]

theorem call_state_eq (h : OAuth1Hook) (sigf : String → String → Except PyErr String)
    (now : Nat) (nonce : String) (st : HookState) (r : Request) (m : Dict)
    (hm : mergedOf r = .ok m) :
    (OAuth1Hook.call h sigf now nonce st r).1 = stepVerifier st m := by
  simp only [OAuth1Hook.call, hm]
  cases hs : signEffect sigf h.consumer h.token (requestAfterParams r (genOauth h st m now nonce)) <;>
    simp only [hs]

theorem call_oauth_params_eq (h : OAuth1Hook) (sigf : String → String → Except PyErr String)
    (now : Nat) (nonce : String) (st : HookState) (r : Request) (m : Dict)
    (hm : mergedOf r = .ok m) :
    (OAuth1Hook.call h sigf now nonce st r).2.1.oauth_params =
      some (genOauth h st m now nonce) := by
  simp only [OAuth1Hook.call, hm]
  cases hs : signEffect sigf h.consumer h.token (requestAfterParams r (genOauth h st m now nonce)) <;>
    simp only [hs]
  · rfl
  · split
    · rfl
    · split <;> rfl

theorem call_total_header_eq (h : OAuth1Hook) (g : String → String → String)
    (now : Nat) (nonce : String) (st : HookState) (r : Request) (m : Dict)
    (hha : h.header_auth = true) (hm : mergedOf r = .ok m) :
    dget (OAuth1Hook.call h (totalSig g) now nonce st r).2.1.headers "Authorization" =
      some (OAuth1Hook.auth_header (signedOf h g st now nonce r m) (realmOf r.url)) := by
  simp only [OAuth1Hook.call, hm, signEffect_total, hha, if_true]
  rw [dget_dput_self]
  rfl

theorem call_total_data_eq (h : OAuth1Hook) (g : String → String → String)
    (now : Nat) (nonce : String) (st : HookState) (r : Request) (m : Dict)
    (hha : h.header_auth = false) (hpost : r.method = "POST")
    (hct : contentTypeOf r = formUrl) (hm : mergedOf r = .ok m) :
    (OAuth1Hook.call h (totalSig g) now nonce st r).2.1.data =
      .pdict (signedOf h g st now nonce r m) := by
  simp only [OAuth1Hook.call, hm, signEffect_total, hha, Bool.false_eq_true, if_false]
  split
  · rfl
  · next hcond => exact absurd ⟨hpost, hct⟩ hcond

/-! Claim theorems. -/

/-- C5 (counterexample): constructing the hook with `access_token` provided
but `access_token_secret` absent does not raise `InvalidCredentialError`;
construction succeeds with no token set, refuting the claim as stated. -/
theorem init_half_token_counterexample :
    OAuth1Hook.init "ck" "cs" (some "tk") none false none =
      .ok ⟨⟨"ck", "cs"⟩, none, false, "HMAC-SHA1"⟩ := rfl

/-- C5 (amended): supplying exactly one of `access_token` and
`access_token_secret` is not an error: the `not None in (a, b)` guard makes
the hook treat the token as absent, and construction succeeds (given
non-empty consumer credentials) with `token = None`. -/
theorem init_half_token_ignored (ck cs tk : String) (ha : Bool) (sg : Option String)
    (hck : ck ≠ "") (hcs : cs ≠ "") :
    OAuth1Hook.init ck cs (some tk) none ha sg =
      .ok ⟨⟨ck, cs⟩, none, ha, sg.getD "HMAC-SHA1"⟩ ∧
    OAuth1Hook.init ck cs none (some tk) ha sg =
      .ok ⟨⟨ck, cs⟩, none, ha, sg.getD "HMAC-SHA1"⟩ := by
  constructor <;> (simp [OAuth1Hook.init, mkConsumer, hck, hcs]; all_goals rfl)

/-- Witness for `init_half_token_ignored` at concrete credentials. -/
theorem init_half_token_ignored_witness :
    OAuth1Hook.init "ck" "cs" (some "tk") none true none =
      .ok ⟨⟨"ck", "cs"⟩, none, true, "HMAC-SHA1"⟩ ∧
    OAuth1Hook.init "ck" "cs" none (some "tk") true none =
      .ok ⟨⟨"ck", "cs"⟩, none, true, "HMAC-SHA1"⟩ :=
  init_half_token_ignored "ck" "cs" "tk" true none (by decide) (by decide)

/-- C6 (counterexample): the generated `oauth_timestamp` is a Python integer
(`int(time.time())`), not a value of string type: at time 1318622958 the
parameter set maps `oauth_timestamp` to a non-string value. -/
theorem timestamp_type_counterexample :
    (dget (OAuth1Hook.oauth_params ⟨⟨"ck", "cs"⟩, none, false, "HMAC-SHA1"⟩ none
      1318622958 "kllo9940pd9333jh") "oauth_timestamp").map PyVal.isStr = some false := rfl

/-- C6 (amended): for every invocation the generated parameter set maps
`oauth_timestamp` to the current Unix time in seconds as an integer value
(stringified only at serialization time), and `oauth_version` to the
constant string `"1.0"`. -/
theorem timestamp_int_version_string (h : OAuth1Hook) (ver : Option PyVal)
    (now : Nat) (nonce : String) :
    dget (OAuth1Hook.oauth_params h ver now nonce) "oauth_timestamp" = some (.int now) ∧
    dget (OAuth1Hook.oauth_params h ver now nonce) "oauth_version" = some (.str "1.0") := by
  obtain ⟨⟨ck, cs⟩, tok, ha, sn⟩ := h
  cases tok <;> cases ver <;> exact ⟨rfl, rfl⟩

/-- C1 (counterexample): a key present in both query and body is not
retained twice: merging `params = dict(a=1)` with `data = dict(a=2)` yields
a single binding, the body value having overwritten the query value, so the
occurrence `(a, 1)` is lost. -/
theorem merge_collapses_duplicates_counterexample :
    mergeParamsData (.pdict [("a", PyVal.str "1")]) (.pdict [("a", PyVal.str "2")]) =
      .ok [("a", PyVal.str "2")] ∧
    ("a", PyVal.str "1") ∉ [("a", PyVal.str "2")] :=
  ⟨rfl, by decide⟩

/-- C1 (amended): the merge of query and body mappings is a Python dict
merge, not a multimap union: each key keeps exactly one binding; a key
present in both takes the body (`data`) value, and a key present only in the
query keeps the query value. -/
theorem merge_single_occurrence (p d : Dict) (k : String)
    (hp : nodupKeys p) (hd : nodupKeys d) :
    ∃ m, mergeParamsData (.pdict p) (.pdict d) = .ok m ∧ nodupKeys m ∧
      (∀ v, dget d k = some v → dget m k = some v ∧ countKey m k = 1) ∧
      (dget d k = none → dget m k = dget p k) := by
  refine ⟨updateAll p d, rfl, nodupKeys_updateAll d p hp, fun v hv => ?_,
    fun hv => dget_updateAll_of_none d p k hv⟩
  have h1 := dget_updateAll_of_some d p k v hd hv
  exact ⟨h1, countKey_eq_one _ _ v (nodupKeys_updateAll d p hp) h1⟩

/-- Witness for `merge_single_occurrence` on the duplicate key `a`. -/
theorem merge_single_occurrence_witness :
    ∃ m, mergeParamsData (.pdict [("a", PyVal.str "1")]) (.pdict [("a", PyVal.str "2")]) =
        .ok m ∧ nodupKeys m ∧
      (∀ v, dget [("a", PyVal.str "2")] "a" = some v → dget m "a" = some v ∧ countKey m "a" = 1) ∧
      (dget [("a", PyVal.str "2")] "a" = none →
        dget m "a" = dget [("a", PyVal.str "1")] "a") :=
  merge_single_occurrence [("a", PyVal.str "1")] [("a", PyVal.str "2")] "a"
    (by decide) (by decide)

/-- C8 (counterexample): a request mixing a raw querystring with a decoded
mapping does not fail with `InvalidRequestShapeError`: a non-empty raw
query with a decoded body escapes with Python's built-in `ValueError`,
and an empty raw query with a decoded body is silently processed. -/
theorem mixed_shapes_counterexample :
    (OAuth1Hook.call hkBody okSig 0 "N" ⟨none⟩ rMixedRaw).2.2 = some PyErr.valueError ∧
    (OAuth1Hook.call hkBody okSig 0 "N" ⟨none⟩ rMixedEmpty).2.2 = none :=
  ⟨rfl, rfl⟩

/-- C8 (amended): mixed raw/decoded parameter shapes are not detected by the
hook.  No `InvalidRequestShapeError` exists; instead, `dict(params, **data)`
raises the built-in `ValueError` for a non-empty raw query string with a
decoded body, `TypeError` whenever the body is a raw string, and silently
accepts an empty raw query string with a decoded body. -/
theorem mixed_shapes_builtin_errors (s : String) (pd dd : Dict) (hs : s ≠ "") :
    mergeParamsData (.pstr s) (.pdict dd) = .error .valueError ∧
    mergeParamsData (.pdict pd) (.pstr s) = .error .typeError ∧
    mergeParamsData (.pstr "") (.pdict dd) = .ok dd := by
  refine ⟨?_, rfl, rfl⟩
  simp [mergeParamsData, hs]

/-- Witness for `mixed_shapes_builtin_errors` at a concrete querystring. -/
theorem mixed_shapes_builtin_errors_witness :
    mergeParamsData (.pstr "a=1") (.pdict [("b", PyVal.str "2")]) = .error .valueError ∧
    mergeParamsData (.pdict [("b", PyVal.str "2")]) (.pstr "a=1") = .error .typeError ∧
    mergeParamsData (.pstr "") (.pdict [("b", PyVal.str "2")]) = .ok [("b", PyVal.str "2")] :=
  mixed_shapes_builtin_errors "a=1" [("b", PyVal.str "2")] [("b", PyVal.str "2")] (by decide)

theorem oauth_params_verifier_some (h : OAuth1Hook) (V : PyVal) (now : Nat) (nonce : String) :
    dget (OAuth1Hook.oauth_params h (some V) now nonce) "oauth_verifier" = some V := by
  obtain ⟨⟨ck, cs⟩, tok, ha, sn⟩ := h
  cases tok <;> rfl

theorem genOauth_dget_of_ne_callback (h : OAuth1Hook) (st : HookState) (m : Dict)
    (now : Nat) (nonce : String) (k : String) (hk : k ≠ "oauth_callback") :
    dget (genOauth h st m now nonce) k =
      dget (OAuth1Hook.oauth_params h (stepVerifier st m).verifier now nonce) k := by
  rw [genOauth, withCallback]
  cases dget m "oauth_callback"
  · rfl
  · rw [dget_dput_ne _ _ _ _ hk]

/-- C10: when the merged caller parameters carry `oauth_callback`, its value
is copied verbatim into the OAuth parameter set generated for the request,
although the `oauth_params` generator itself never produces an
`oauth_callback` key. -/
theorem callback_copied (h : OAuth1Hook) (sigf : String → String → Except PyErr String)
    (now : Nat) (nonce : String) (st : HookState) (r : Request) (m : Dict) (v : PyVal)
    (hm : mergedOf r = .ok m) (hcb : dget m "oauth_callback" = some v) :
    dget (((OAuth1Hook.call h sigf now nonce st r).2.1.oauth_params).getD [])
        "oauth_callback" = some v ∧
    dget (OAuth1Hook.oauth_params h (stepVerifier st m).verifier now nonce)
        "oauth_callback" = none := by
  refine ⟨?_, oauth_params_no_callback ..⟩
  rw [call_oauth_params_eq h sigf now nonce st r m hm, Option.getD_some,
    genOauth, withCallback, hcb, dget_dput_self]

/-- Witness for `callback_copied` at a concrete request. -/
theorem callback_copied_witness :
    dget (((OAuth1Hook.call hkBody okSig 0 "N" ⟨none⟩ rCallback).2.1.oauth_params).getD [])
        "oauth_callback" = some (.str "http://cb/") ∧
    dget (OAuth1Hook.oauth_params hkBody
        (stepVerifier ⟨none⟩ [("oauth_callback", PyVal.str "http://cb/")]).verifier 0 "N")
        "oauth_callback" = none :=
  callback_copied hkBody okSig 0 "N" ⟨none⟩ rCallback
    [("oauth_callback", PyVal.str "http://cb/")] (.str "http://cb/") rfl rfl

/-- C2: verifier persistence.  A call whose merged parameters carry
`oauth_verifier = V` records `V` into the hook state; and from any state
remembering `V`, every invocation whose merged input has no
`oauth_verifier` still produces `oauth_verifier = V` in its generated OAuth
parameter set and leaves the remembered verifier at `V` (so this holds for
every subsequent call until a later observed value replaces it). -/
theorem verifier_persistence (h : OAuth1Hook) (sigf : String → String → Except PyErr String)
    (now : Nat) (nonce : String) (st : HookState) (r : Request) (m : Dict) (V : PyVal)
    (hm : mergedOf r = .ok m) (hv : dget m "oauth_verifier" = some V) :
    (OAuth1Hook.call h sigf now nonce st r).1.verifier = some V ∧
    ∀ (sigf' : String → String → Except PyErr String) (now' : Nat) (nonce' : String)
      (st' : HookState) (r' : Request) (m' : Dict),
      st'.verifier = some V → mergedOf r' = .ok m' → dget m' "oauth_verifier" = none →
      dget (((OAuth1Hook.call h sigf' now' nonce' st' r').2.1.oauth_params).getD [])
          "oauth_verifier" = some V ∧
      (OAuth1Hook.call h sigf' now' nonce' st' r').1.verifier = some V := by
  constructor
  · rw [call_state_eq h sigf now nonce st r m hm, stepVerifier, hv]
  · intro sigf' now' nonce' st' r' m' hst hm' hv'
    have hstep : stepVerifier st' m' = st' := by rw [stepVerifier, hv']
    constructor
    · rw [call_oauth_params_eq h sigf' now' nonce' st' r' m' hm', Option.getD_some,
        genOauth_dget_of_ne_callback h st' m' now' nonce' "oauth_verifier" (by decide),
        hstep, hst, oauth_params_verifier_some]
    · rw [call_state_eq h sigf' now' nonce' st' r' m' hm', hstep, hst]

/-- Witness for `verifier_persistence`: observing `XYZ` in one call, a later
call with no verifier in its input still generates `oauth_verifier=XYZ`. -/
theorem verifier_persistence_witness :
    (OAuth1Hook.call hkBody okSig 0 "N" ⟨none⟩ rVerifier).1.verifier = some (.str "XYZ") ∧
    dget (((OAuth1Hook.call hkBody okSig 1 "M" ⟨some (.str "XYZ")⟩ rPlain).2.1.oauth_params).getD [])
        "oauth_verifier" = some (.str "XYZ") ∧
    (OAuth1Hook.call hkBody okSig 1 "M" ⟨some (.str "XYZ")⟩ rPlain).1.verifier =
      some (.str "XYZ") := by
  have h := verifier_persistence hkBody okSig 0 "N" ⟨none⟩ rVerifier
    [("oauth_verifier", PyVal.str "XYZ")] (.str "XYZ") rfl rfl
  exact ⟨h.1, (h.2 okSig 1 "M" ⟨some (.str "XYZ")⟩ rPlain [] rfl rfl rfl).1,
    (h.2 okSig 1 "M" ⟨some (.str "XYZ")⟩ rPlain [] rfl rfl rfl).2⟩

/-- C9 (counterexample): a failing signature step does not leave the request
view untouched: query parameters supplied as a pair list have already been
collapsed into a dict (here losing the duplicate binding `(a, 1)`) when the
signing error escapes. -/
theorem failure_mutation_counterexample :
    (OAuth1Hook.call hkBody failSig 0 "N" ⟨none⟩ rListDup).2.2 = some PyErr.signingError ∧
    (OAuth1Hook.call hkBody failSig 0 "N" ⟨none⟩ rListDup).2.1.params =
      .pdict [("a", PyVal.str "2")] ∧
    rListDup.params = .plist [("a", PyVal.str "1"), ("a", PyVal.str "2")] ∧
    ParamsIn.pdict [("a", PyVal.str "2")] ≠
      .plist [("a", PyVal.str "1"), ("a", PyVal.str "2")] :=
  ⟨rfl, rfl, rfl, by decide⟩

/-- C9 (amended): when any step of the pass fails, the request's method, URL
and headers are indeed left unchanged (the content-type default and the
placement step run only after signing), but the pass mutates incrementally
before that point: query and body fields supplied as pair lists have already
been converted to dicts (collapsing duplicate keys), and the oauth-parameter
attributes remain attached to the request. -/
theorem failure_preserves_outer_fields (h : OAuth1Hook)
    (sigf : String → String → Except PyErr String)
    (now : Nat) (nonce : String) (st : HookState) (r : Request)
    (hfail : (OAuth1Hook.call h sigf now nonce st r).2.2 ≠ none) :
    (OAuth1Hook.call h sigf now nonce st r).2.1.method = r.method ∧
    (OAuth1Hook.call h sigf now nonce st r).2.1.url = r.url ∧
    (OAuth1Hook.call h sigf now nonce st r).2.1.headers = r.headers ∧
    (OAuth1Hook.call h sigf now nonce st r).2.1.params = dictifyIn r.params ∧
    (OAuth1Hook.call h sigf now nonce st r).2.1.data = dictifyIn r.data := by
  cases hm : mergedOf r with
  | error e => simp [OAuth1Hook.call, hm]
  | ok m =>
    cases hs : signEffect sigf h.consumer h.token
        (requestAfterParams r (genOauth h st m now nonce)) with
    | error e =>
      simp only [OAuth1Hook.call, hm, hs]
      exact ⟨rfl, rfl, rfl, rfl, rfl⟩
    | ok pads =>
      exfalso
      apply hfail
      simp only [OAuth1Hook.call, hm, hs]

/-- Witness for `failure_preserves_outer_fields` on a failing signature. -/
theorem failure_preserves_outer_fields_witness :
    (OAuth1Hook.call hkBody failSig 0 "N" ⟨none⟩ rListDup).2.1.method = rListDup.method ∧
    (OAuth1Hook.call hkBody failSig 0 "N" ⟨none⟩ rListDup).2.1.url = rListDup.url ∧
    (OAuth1Hook.call hkBody failSig 0 "N" ⟨none⟩ rListDup).2.1.headers = rListDup.headers ∧
    (OAuth1Hook.call hkBody failSig 0 "N" ⟨none⟩ rListDup).2.1.params = dictifyIn rListDup.params ∧
    (OAuth1Hook.call hkBody failSig 0 "N" ⟨none⟩ rListDup).2.1.data = dictifyIn rListDup.data :=
  failure_preserves_outer_fields hkBody failSig 0 "N" ⟨none⟩ rListDup (by decide)

/-- C4 (counterexample): a POST body parameter colliding with a generated
OAuth key is not kept alongside it: with body `oauth_version=2.0` the
generated pair `(oauth_version, "1.0")` does not appear in the final body at
all — the caller value overwrote it in the dict merge. -/
theorem body_mode_counterexample :
    dget (genOauth hkBody ⟨none⟩ [("oauth_version", PyVal.str "2.0")] 0 "N") "oauth_version" =
      some (.str "1.0") ∧
    mergedOf rBodyColl = .ok [("oauth_version", PyVal.str "2.0")] ∧
    (OAuth1Hook.call hkBody okSig 0 "N" ⟨none⟩ rBodyColl).2.1.data = .pdict
      [("oauth_consumer_key", PyVal.str "ck"), ("oauth_timestamp", PyVal.int 0),
       ("oauth_nonce", PyVal.str "N"), ("oauth_version", PyVal.str "2.0"),
       ("oauth_signature_method", PyVal.str "HMAC-SHA1"), ("oauth_signature", PyVal.str "SIG")] ∧
    ("oauth_version", PyVal.str "1.0") ∉
      [("oauth_consumer_key", PyVal.str "ck"), ("oauth_timestamp", PyVal.int 0),
       ("oauth_nonce", PyVal.str "N"), ("oauth_version", PyVal.str "2.0"),
       ("oauth_signature_method", PyVal.str "HMAC-SHA1"), ("oauth_signature", PyVal.str "SIG")] :=
  ⟨rfl, rfl, rfl, by decide⟩

/-- C4 (amended): for a POST with form content-type and header auth off, the
final body is the signed merged dict: every caller body parameter appears
exactly once with its own value (overwriting a same-keyed generated OAuth
parameter if any), every generated OAuth parameter whose key is not also a
caller query/body key appears exactly once, and `oauth_signature` appears
exactly once. -/
theorem body_mode_contents (h : OAuth1Hook) (g : String → String → String)
    (now : Nat) (nonce : String) (st : HookState) (r : Request) (m : Dict)
    (hha : h.header_auth = false) (hpost : r.method = "POST")
    (hct : contentTypeOf r = formUrl) (hm : mergedOf r = .ok m)
    (hnd : nodupKeys (toMapping r.data)) :
    ∃ pads, (OAuth1Hook.call h (totalSig g) now nonce st r).2.1.data = .pdict pads ∧
      nodupKeys pads ∧
      (∀ k v, dget (toMapping r.data) k = some v → k ≠ "oauth_signature" →
        dget pads k = some v ∧ countKey pads k = 1) ∧
      (∀ k v, dget (genOauth h st m now nonce) k = some v →
        dget (toMapping r.params) k = none → dget (toMapping r.data) k = none →
        k ≠ "oauth_signature" → dget pads k = some v ∧ countKey pads k = 1) ∧
      (dget pads "oauth_signature").isSome = true ∧
      countKey pads "oauth_signature" = 1 := by
  have hinner : nodupKeys (updateAll (updateAll (genOauth h st m now nonce)
      (toMapping r.params)) (toMapping r.data)) :=
    nodupKeys_updateAll _ _ (nodupKeys_updateAll _ _ (nodupKeys_genOauth h st m now nonce))
  have hpads : nodupKeys (signedOf h g st now nonce r m) := by
    rw [signedOf]
    exact nodupKeys_dput _ _ _ hinner
  refine ⟨signedOf h g st now nonce r m,
    call_total_data_eq h g now nonce st r m hha hpost hct hm, hpads, ?_, ?_, ?_, ?_⟩
  · intro k v hk hksig
    have h1 : dget (signedOf h g st now nonce r m) k = some v := by
      rw [signedOf, dget_dput_ne _ _ _ _ hksig]
      exact dget_updateAll_of_some _ _ k v hnd hk
    exact ⟨h1, countKey_eq_one _ _ v hpads h1⟩
  · intro k v hk hpnone hdnone hksig
    have h1 : dget (signedOf h g st now nonce r m) k = some v := by
      rw [signedOf, dget_dput_ne _ _ _ _ hksig,
        dget_updateAll_of_none _ _ k hdnone, dget_updateAll_of_none _ _ k hpnone]
      exact hk
    exact ⟨h1, countKey_eq_one _ _ v hpads h1⟩
  · rw [signedOf, dget_dput_self]
    rfl
  · exact countKey_eq_one _ _ _ hpads (by rw [signedOf, dget_dput_self])

/-- Witness for `body_mode_contents` on a concrete form POST. -/
theorem body_mode_contents_witness :
    ∃ pads, (OAuth1Hook.call hkBody (totalSig (fun _ _ => "SIG")) 0 "N" ⟨none⟩ rBodyX).2.1.data =
        .pdict pads ∧
      nodupKeys pads ∧
      (∀ k v, dget (toMapping rBodyX.data) k = some v → k ≠ "oauth_signature" →
        dget pads k = some v ∧ countKey pads k = 1) ∧
      (∀ k v, dget (genOauth hkBody ⟨none⟩ [("x", PyVal.str "y")] 0 "N") k = some v →
        dget (toMapping rBodyX.params) k = none → dget (toMapping rBodyX.data) k = none →
        k ≠ "oauth_signature" → dget pads k = some v ∧ countKey pads k = 1) ∧
      (dget pads "oauth_signature").isSome = true ∧
      countKey pads "oauth_signature" = 1 :=
  body_mode_contents hkBody (fun _ _ => "SIG") 0 "N" ⟨none⟩ rBodyX
    [("x", PyVal.str "y")] rfl rfl rfl rfl (by decide)

/-- C3 (counterexample): with header auth enabled, the Authorization header
produced for a request carrying the caller query parameter `foo=bar`
contains the fragment `,foo="bar"`, although `foo` is no key of the
generated OAuth parameter set — so the header is not built from the OAuth
parameter set alone. -/
theorem auth_header_counterexample :
    containsStr ((dget (OAuth1Hook.call hkHdr okSig 0 "N" ⟨none⟩ rHdrFoo).2.1.headers
        "Authorization").getD "") ",foo=\"bar\"" = true ∧
    dget (genOauth hkHdr ⟨none⟩ [("foo", PyVal.str "bar")] 0 "N") "foo" = none :=
  ⟨by decide, rfl⟩

/-- C3 (amended): in header-authentication mode the Authorization header is
built from the merged signed parameter set — the generated OAuth parameters
together with the caller's query/body parameters — not from the OAuth set
alone.  The header reads `OAuth realm="<urlunsplit(scheme, netloc, /,,)>"`
followed by one `,key="value"` fragment per merged parameter, each value
percent-encoded with `urllib.quote(str(v))`. -/
theorem auth_header_merged_params (h : OAuth1Hook) (g : String → String → String)
    (now : Nat) (nonce : String) (st : HookState) (r : Request) (m : Dict)
    (hha : h.header_auth = true) (hm : mergedOf r = .ok m)
    (hnd : nodupKeys (toMapping r.data)) :
    ∃ pads, dget (OAuth1Hook.call h (totalSig g) now nonce st r).2.1.headers "Authorization" =
        some (OAuth1Hook.auth_header pads (realmOf r.url)) ∧
      (∃ rest, OAuth1Hook.auth_header pads (realmOf r.url) =
        "OAuth realm=\"" ++ realmOf r.url ++ "\"" ++ rest) ∧
      (∀ k v, dget (toMapping r.data) k = some v → k ≠ "oauth_signature" →
        dget pads k = some v) ∧
      (∀ k v, dget (genOauth h st m now nonce) k = some v →
        dget (toMapping r.params) k = none → dget (toMapping r.data) k = none →
        k ≠ "oauth_signature" → dget pads k = some v) ∧
      ∀ kv ∈ pads,
        containsStr (OAuth1Hook.auth_header pads (realmOf r.url)) (paramChunk kv) = true := by
  refine ⟨signedOf h g st now nonce r m,
    call_total_header_eq h g now nonce st r m hha hm,
    ⟨strConcat ((signedOf h g st now nonce r m).map paramChunk), rfl⟩, ?_, ?_, ?_⟩
  · intro k v hk hksig
    rw [signedOf, dget_dput_ne _ _ _ _ hksig]
    exact dget_updateAll_of_some _ _ k v hnd hk
  · intro k v hk hpnone hdnone hksig
    rw [signedOf, dget_dput_ne _ _ _ _ hksig,
      dget_updateAll_of_none _ _ k hdnone, dget_updateAll_of_none _ _ k hpnone]
    exact hk
  · intro kv hkv
    obtain ⟨a, b, hab⟩ := strConcat_mem (paramChunk kv) _ (List.mem_map_of_mem paramChunk hkv)
    refine containsStr_of_eq _ (("OAuth realm=\"" ++ realmOf r.url ++ "\"") ++ a)
      (paramChunk kv) b ?_
    rw [OAuth1Hook.auth_header, hab, ← strAppend_assoc]

/-- Witness for `auth_header_merged_params` at a concrete request. -/
theorem auth_header_merged_params_witness :
    ∃ pads, dget (OAuth1Hook.call hkHdr (totalSig (fun _ _ => "SIG")) 0 "N" ⟨none⟩
        rHdrFoo).2.1.headers "Authorization" =
        some (OAuth1Hook.auth_header pads (realmOf rHdrFoo.url)) ∧
      (∃ rest, OAuth1Hook.auth_header pads (realmOf rHdrFoo.url) =
        "OAuth realm=\"" ++ realmOf rHdrFoo.url ++ "\"" ++ rest) ∧
      (∀ k v, dget (toMapping rHdrFoo.data) k = some v → k ≠ "oauth_signature" →
        dget pads k = some v) ∧
      (∀ k v, dget (genOauth hkHdr ⟨none⟩ [("foo", PyVal.str "bar")] 0 "N") k = some v →
        dget (toMapping rHdrFoo.params) k = none → dget (toMapping rHdrFoo.data) k = none →
        k ≠ "oauth_signature" → dget pads k = some v) ∧
      ∀ kv ∈ pads,
        containsStr (OAuth1Hook.auth_header pads (realmOf rHdrFoo.url)) (paramChunk kv) = true :=
  auth_header_merged_params hkHdr (fun _ _ => "SIG") 0 "N" ⟨none⟩ rHdrFoo
    [("foo", PyVal.str "bar")] rfl rfl (by decide)
